import Mathlib

/-!
Verification of the table viewer, autocomplete popup and error dialog widgets
(`src/components/table.rs`, `src/components/completion.rs`,
`src/components/error.rs`).  The Rust code is shallowly embedded: each struct
becomes a Lean structure, each method a pure function (methods that mutate
`self`, including the interior-mutable `column_page_start` cell, return the
updated state explicitly).  `usize` values are modelled as `Nat`; the one
place where `usize` underflow matters (the completion popup) uses explicit
wrap-around arithmetic modulo `2 ^ 64`.
-/

/-- Display width of a string, abstracting the `unicode_width` crate used by
the source.  The general theorems below are parametric in an arbitrary width
function `w : String → Nat`; concrete examples instantiate it with
`asciiWidth`, which agrees with `UnicodeWidthStr::width` on the ASCII strings
appearing in those examples (every printable ASCII character has display
width 1). -/
def asciiWidth (s : String) : Nat := s.length

/-- `tui::layout::Constraint`, restricted to the two constructors the table
component uses. -/
inductive Constraint where
  | Length : Nat → Constraint
  | Min : Nat → Constraint
deriving DecidableEq, Repr

/-- `EventState` from the component framework. -/
inductive EventState where
  | Consumed
  | NotConsumed
deriving DecidableEq, Repr

/-- `crate::event::Key`, restricted to the shapes the table component's
`event` handler matches on; `Other` stands for every further key variant
(all of which fall into the handler's catch-all arm). -/
inductive Key where
  | Char : Char → Key
  | Ctrl : Char → Key
  | Other : Key
deriving DecidableEq, Repr

/-- `TableComponent` (table.rs).  `selected_row` models
`TableState::selected()`; `column_page_start` models the
`std::cell::Cell<usize>` field.  The `eod` flag and the vertical-scroll
helper play no role in the verified operations and are omitted. -/
structure TableComponent where
  headers : List String
  rows : List (List String)
  selected_row : Option Nat
  selected_column : Nat
  selection_area_corner : Option (Nat × Nat)
  column_page_start : Nat
deriving DecidableEq, Repr

/-- `TableComponent::new`: select row 0 iff `rows` is non-empty; all other
fields from `Default`. -/
def TableComponent.new (rows : List (List String)) (headers : List String) :
    TableComponent :=
  { headers := headers
    rows := rows
    selected_row := if rows.isEmpty then none else some 0
    selected_column := 0
    selection_area_corner := none
    column_page_start := 0 }

/-- `TableComponent::reset`: drop the rectangle anchor. -/
def TableComponent.reset (s : TableComponent) : TableComponent :=
  { s with selection_area_corner := none }

/-- `TableComponent::next_row(lines)`. -/
def TableComponent.next_row (s : TableComponent) (lines : Nat) : TableComponent :=
  let i := match s.selected_row with
    | some i =>
      if i + lines ≥ s.rows.length then some (s.rows.length - 1) else some (i + lines)
    | none => none
  { s with selection_area_corner := none, selected_row := i }

/-- `TableComponent::previous_row(lines)`. -/
def TableComponent.previous_row (s : TableComponent) (lines : Nat) : TableComponent :=
  let i := match s.selected_row with
    | some i => if i ≤ lines then some 0 else some (i - lines)
    | none => none
  { s with selection_area_corner := none, selected_row := i }

/-- `TableComponent::scroll_top`. -/
def TableComponent.scroll_top (s : TableComponent) : TableComponent :=
  if s.rows.isEmpty then s
  else { s with selection_area_corner := none, selected_row := some 0 }

/-- `TableComponent::scroll_bottom`. -/
def TableComponent.scroll_bottom (s : TableComponent) : TableComponent :=
  if s.rows.isEmpty then s
  else { s with selection_area_corner := none, selected_row := some (s.rows.length - 1) }

/-- `TableComponent::next_column`. -/
def TableComponent.next_column (s : TableComponent) : TableComponent :=
  if s.rows.isEmpty then s
  else if s.selected_column ≥ s.headers.length - 1 then s
  else { s with selection_area_corner := none, selected_column := s.selected_column + 1 }

/-- `TableComponent::previous_column`. -/
def TableComponent.previous_column (s : TableComponent) : TableComponent :=
  if s.rows.isEmpty then s
  else if s.selected_column = 0 then s
  else { s with selection_area_corner := none, selected_column := s.selected_column - 1 }

/-- `TableComponent::expand_selected_area_x(positive)`: anchor the rectangle
at the cursor if absent, then move its column bound (clamped to the last
header on the right, saturating at 0 on the left). -/
def TableComponent.expand_selected_area_x (s : TableComponent) (positive : Bool) :
    TableComponent :=
  let c := match s.selection_area_corner with
    | none => (s.selected_column, s.selected_row.getD 0)
    | some c => c
  let c' := (if positive then min (c.1 + 1) (s.headers.length - 1) else c.1 - 1, c.2)
  { s with selection_area_corner := some c' }

/-- `TableComponent::expand_selected_area_y(positive)`. -/
def TableComponent.expand_selected_area_y (s : TableComponent) (positive : Bool) :
    TableComponent :=
  let c := match s.selection_area_corner with
    | none => (s.selected_column, s.selected_row.getD 0)
    | some c => c
  let c' := (c.1, if positive then min (c.2 + 1) (s.rows.length - 1) else c.2 - 1)
  { s with selection_area_corner := some c' }

/-- `TableComponent::selected_cells`.  Rust slice expressions `rows[a..b]`
are rendered as `(·.drop a).take (b - a)`; `Vec::join` is
`String.intercalate`. -/
def TableComponent.selected_cells (s : TableComponent) : Option String :=
  match s.selection_area_corner with
  | some (x, y) =>
    match s.selected_row with
    | none => none
    | some sr =>
      some (String.intercalate "\n"
        (((s.rows.drop (min y sr)).take (max y sr + 1 - min y sr)).map (fun row =>
          String.intercalate ","
            ((row.drop (min x s.selected_column)).take
              (max x s.selected_column + 1 - min x s.selected_column)))))
  | none =>
    match s.selected_row with
    | none => none
    | some sr =>
      match s.rows.get? sr with
      | none => none
      | some row => row.get? s.selected_column

/-- `TableComponent::selected_column_index`: the rectangle corner's column
when a rectangle is set, else the cursor column. -/
def TableComponent.selected_column_index (s : TableComponent) : Nat :=
  match s.selection_area_corner with
  | some (x, _) => x
  | none => s.selected_column

/-- The private `TableComponent::headers(left, right)` helper: slice of the
header list with a leading blank for the row-number column. -/
def TableComponent.headersSlice (s : TableComponent) (left right : Nat) : List String :=
  "" :: (s.headers.drop left).take (right - left)

/-- The private `TableComponent::rows(left, right)` helper: slice of every
row, each prefixed with its 1-based row number. -/
def TableComponent.rowsSlice (s : TableComponent) (left right : Nat) :
    List (List String) :=
  (s.rows.map (fun row => (row.drop left).take (right - left))).enum.map
    (fun p => toString (p.1 + 1) :: p.2)

/-- Clamped content width of column `ci`: the maximum display width over all
cells of the column (a missing cell reads as the empty string) joined with
the header's width (a missing header reads as 3), clamped to `[3, 20]`.
The source computes the header fallback twice in syntactically different but
equivalent ways (leftward loop: `headers.get(ci).map_or(3, width)`;
rightward loop: `headers.iter().map(width).collect().get(ci).unwrap_or(&3)`). -/
def colLength (w : String → Nat) (headers : List String) (rows : List (List String))
    (ci : Nat) : Nat :=
  match (rows.map (fun row => w (row.getD ci ""))).max? with
  | none => 3
  | some v =>
    let hw := match headers.get? ci with
      | some header => w header
      | none => 3
    min (max (max v hw) 3) 20

/-- Sum of the accumulated column widths, `widths.iter().map(|(_, w)| w).sum()`. -/
def sumW (widths : List (String × Nat)) : Nat := (widths.map Prod.snd).sum

/-- The first (leftward) loop of `calculate_cell_widths`: starting at the
selected column index `ci` and walking left toward the window start `cps`,
append `(header, width)` pairs while the running total (content widths plus
one separator per column) stays under `budget`.  Returns the accumulated
list (in right-to-left order, reversed by the caller) and the final
`column_index` (the new `far_left`).  The `ci = 0` branch returns directly
after pushing: the caller's reset guarantees `cps ≤ ci`, so reaching 0
implies `cps = 0` and the source's `column_index == cps` break fires there
(otherwise the source's `column_index -= 1` would underflow). -/
def leftLoop (w : String → Nat) (headers : List String) (rows : List (List String))
    (budget cps : Nat) : Nat → List (String × Nat) → List (String × Nat) × Nat
  | 0, widths =>
    let length := colLength w headers rows 0
    if sumW widths + length + widths.length ≥ budget then (widths, 1)
    else (widths ++ [(headers.getD 0 "", length)], 0)
  | ci + 1, widths =>
    let length := colLength w headers rows (ci + 1)
    if sumW widths + length + widths.length ≥ budget then (widths, ci + 2)
    else
      let widths' := widths ++ [(headers.getD (ci + 1) "", length)]
      if ci + 1 = cps then (widths', ci + 1)
      else leftLoop w headers rows budget cps ci widths'

/-- The second (rightward) loop of `calculate_cell_widths`: starting just
after the originally selected column, append columns while the running total
stays within `budget`, stopping at the end of the header list.  `fuel` is a
structural-termination counter; the caller passes `headers.length + 1`,
which exceeds the number of remaining columns, so the `fuel = 0` base case
is never reached. -/
def rightLoop (w : String → Nat) (headers : List String) (rows : List (List String))
    (budget : Nat) : Nat → Nat → List (String × Nat) → List (String × Nat) × Nat
  | 0, ci, widths => (widths, ci)
  | fuel + 1, ci, widths =>
    if sumW widths + widths.length ≤ budget then
      let length := colLength w headers rows ci
      match headers.get? ci with
      | some header =>
        rightLoop w headers rows budget fuel (ci + 1) (widths ++ [(header, length)])
      | none => (widths, ci)
    else (widths, ci)

/-- `TableComponent::calculate_cell_widths(area_width)`, parametric in the
display-width function `w`.  Returns the source's 4-tuple (selected index
within the visible band, visible headers, visible rows, constraints)
together with the new value of the interior-mutable `column_page_start`
cell (the net effect of the two `set` calls: the final `far_left`, or the
old value on the empty-rows early return). -/
def TableComponent.calculate_cell_widths (w : String → Nat) (s : TableComponent)
    (area_width : Nat) :
    (Nat × List String × List (List String) × List Constraint) × Nat :=
  if s.rows.isEmpty then ((0, [], [], []), s.column_page_start)
  else
    let sci := s.selected_column_index
    let cps := if sci < s.column_page_start then sci else s.column_page_start
    let number_column_width := w (toString (s.rows.length + 1))
    let budget := area_width - number_column_width
    let lres := leftLoop w s.headers s.rows budget cps sci []
    let widthsL := lres.1.reverse
    let far_left_column_index := lres.2
    let selected_column_idx := widthsL.length - 1
    let rres := rightLoop w s.headers s.rows budget (s.headers.length + 1)
      (sci + 1) widthsL
    let far_right_column_index := rres.2
    let widths := if sci ≠ s.headers.length - 1 then rres.1.dropLast else rres.1
    let constraints := widths.map (fun p => Constraint.Length p.2)
    let constraints := if sci ≠ s.headers.length - 1
      then constraints ++ [Constraint.Min 10] else constraints
    let constraints := Constraint.Length number_column_width :: constraints
    let idx := match s.selection_area_corner with
      | none => selected_column_idx + 1
      | some (x, _) =>
        if x > s.selected_column then
          (selected_column_idx + 1) - (x - s.selected_column)
        else (selected_column_idx + 1) + (s.selected_column - x)
    ((idx, s.headersSlice far_left_column_index far_right_column_index,
      s.rowsSlice far_left_column_index far_right_column_index, constraints),
     far_left_column_index)

/-- `<TableComponent as Component>::event`: key dispatch of the table
viewer.  The source's `match` arms are mutually disjoint constructor/literal
patterns, rendered here as a chain of equality tests in the same order. -/
def TableComponent.event (s : TableComponent) (key : Key) :
    TableComponent × EventState :=
  if key = Key.Char 'h' then (s.previous_column, EventState.Consumed)
  else if key = Key.Char 'j' then (s.next_row 1, EventState.NotConsumed)
  else if key = Key.Ctrl 'd' then (s.next_row 10, EventState.NotConsumed)
  else if key = Key.Char 'k' then (s.previous_row 1, EventState.Consumed)
  else if key = Key.Ctrl 'u' then (s.previous_row 10, EventState.Consumed)
  else if key = Key.Char 'g' then (s.scroll_top, EventState.Consumed)
  else if key = Key.Char 'G' then (s.scroll_bottom, EventState.Consumed)
  else if key = Key.Char 'l' then (s.next_column, EventState.Consumed)
  else if key = Key.Char 'H' then (s.expand_selected_area_x false, EventState.Consumed)
  else if key = Key.Char 'K' then (s.expand_selected_area_y false, EventState.Consumed)
  else if key = Key.Char 'J' then (s.expand_selected_area_y true, EventState.Consumed)
  else if key = Key.Char 'L' then (s.expand_selected_area_x true, EventState.Consumed)
  else (s, EventState.NotConsumed)

/-- `RESERVED_WORDS` (completion.rs). -/
def RESERVED_WORDS : List String := ["IN", "AND", "OR", "NOT", "NULL", "IS"]

/-- `CompletionComponent` (completion.rs); `state_selected` models
`ListState::selected()`.  The `key_config` field only routes keys to
`next`/`previous` and is omitted. -/
structure CompletionComponent where
  state_selected : Option Nat
  word : String
  candidates : List String
deriving DecidableEq, Repr

/-- `CompletionComponent::new(_, word)`. -/
def CompletionComponent.new (word : String) : CompletionComponent :=
  { state_selected := none, word := word, candidates := [] }

/-- `CompletionComponent::update(word)`: store the word, refill `candidates`
with the full reserved-word list and select index 0. -/
def CompletionComponent.update (c : CompletionComponent) (word : String) :
    CompletionComponent :=
  { c with word := word, candidates := RESERVED_WORDS, state_selected := some 0 }

/-- `str::starts_with(&str)`: for valid UTF-8 a byte prefix by a whole
string is exactly a character prefix, rendered on the character lists. -/
def strStartsWith (s pre : String) : Bool := pre.data.isPrefixOf s.data

/-- `str::to_lowercase`, character by character; full Unicode lowercasing
agrees with this on the ASCII data of this component. -/
def strToLower (s : String) : String := String.mk (s.data.map Char.toLower)

/-- `str::to_uppercase`, character by character. -/
def strToUpper (s : String) : String := String.mk (s.data.map Char.toUpper)

/-- `CompletionComponent::filterd_candidates` (spelling as in the source):
candidates that start with the lowercased or uppercased current word, when
the word is non-empty. -/
def CompletionComponent.filterd_candidates (c : CompletionComponent) : List String :=
  c.candidates.filter (fun cand =>
    (strStartsWith cand (strToLower c.word) || strStartsWith cand (strToUpper c.word))
      && !c.word.isEmpty)

/-- The modulus of `usize` on a 64-bit target. -/
def USIZE : Nat := 2 ^ 64

/-- `n - 1` on `usize` with release-profile (wrapping) semantics: the
source's `filterd_candidates().count() - 1` underflows when the filtered
list is empty — a panic under the debug profile, a wrap to `usize::MAX`
under release, modelled here as the wrap. -/
def usizeSub1 (n : Nat) : Nat := (n + USIZE - 1) % USIZE

/-- `CompletionComponent::next`. -/
def CompletionComponent.next (c : CompletionComponent) : CompletionComponent :=
  let i := match c.state_selected with
    | some i => if i ≥ usizeSub1 c.filterd_candidates.length then 0 else i + 1
    | none => 0
  { c with state_selected := some i }

/-- `CompletionComponent::previous`. -/
def CompletionComponent.previous (c : CompletionComponent) : CompletionComponent :=
  let i := match c.state_selected with
    | some i => if i = 0 then usizeSub1 c.filterd_candidates.length else i - 1
    | none => 0
  { c with state_selected := some i }

/-- `CompletionComponent::string_to_be_completed`: the selected filtered
candidate's characters at char positions at or beyond the byte length of the
typed word, followed by a space (`format!("{} ", …)`). -/
def CompletionComponent.string_to_be_completed (c : CompletionComponent) :
    Option String :=
  let len := c.word.utf8ByteSize
  match c.state_selected with
  | none => none
  | some i =>
    match c.filterd_candidates.get? i with
    | none => none
    | some cand =>
      some (String.mk ((cand.data.enum.filter (fun p => p.1 ≥ len)).map Prod.snd)
        ++ " ")

/-- `ErrorComponent` (error.rs). -/
structure ErrorComponent where
  error : Option String
deriving DecidableEq, Repr

/-- `ErrorComponent::set`. -/
def ErrorComponent.set (c : ErrorComponent) (e : String) : ErrorComponent :=
  { c with error := some e }

/-- `<ErrorComponent as Component>::event`: ignores the key entirely. -/
def ErrorComponent.event (c : ErrorComponent) (_key : Key) :
    ErrorComponent × EventState :=
  (c, EventState.NotConsumed)

set_option maxRecDepth 8000

/-! ## Helper lemmas about the leftward loop -/

/-- The leftward loop never stops right of `ci + 1`: it either overflows at
its first column (returning `ci + 1`) or stops at a column it visited. -/
theorem leftLoop_snd_le (w : String → Nat) (headers : List String)
    (rows : List (List String)) (budget cps : Nat) :
    ∀ (ci : Nat) (widths : List (String × Nat)),
      (leftLoop w headers rows budget cps ci widths).2 ≤ ci + 1 := by
  intro ci
  induction ci with
  | zero =>
    intro widths
    simp only [leftLoop]
    split
    · exact Nat.le_refl 1
    · exact Nat.zero_le 1
  | succ ci ih =>
    intro widths
    simp only [leftLoop]
    split
    · exact Nat.le_refl _
    · split
      · exact Nat.le_succ _
      · exact Nat.le_trans (ih _) (Nat.le_succ _)

/-- If the leftward loop stops at `ci + 1`, it overflowed immediately and
the accumulator is unchanged. -/
theorem leftLoop_eq_of_snd (w : String → Nat) (headers : List String)
    (rows : List (List String)) (budget : Nat) :
    ∀ (ci : Nat) (widths : List (String × Nat)) (cps : Nat), cps ≤ ci →
      (leftLoop w headers rows budget cps ci widths).2 = ci + 1 →
      leftLoop w headers rows budget cps ci widths = (widths, ci + 1) := by
  intro ci
  induction ci with
  | zero =>
    intro widths cps hc h
    simp only [leftLoop] at h ⊢
    split at h
    next hov => rw [if_pos hov]
    next hov => simp at h
  | succ ci ih =>
    intro widths cps hc h
    simp only [leftLoop] at h ⊢
    split at h
    next hov => rw [if_pos hov]
    next hov =>
      split at h
      next hcp => simp at h
      next hcp =>
        exfalso
        have hb := leftLoop_snd_le w headers rows budget cps ci
          (widths ++ [(headers.getD (ci + 1) "", colLength w headers rows (ci + 1))])
        omega

/-- Stability of the leftward loop: restarting it from the same column with
the window start replaced by the previous run's result (clamped back to the
column, as `calculate_cell_widths` does on re-entry) reproduces the run. -/
theorem leftLoop_restart (w : String → Nat) (headers : List String)
    (rows : List (List String)) (budget : Nat) :
    ∀ (ci : Nat) (widths : List (String × Nat)) (cps : Nat), cps ≤ ci →
      leftLoop w headers rows budget
        (if ci < (leftLoop w headers rows budget cps ci widths).2 then ci
         else (leftLoop w headers rows budget cps ci widths).2) ci widths
      = leftLoop w headers rows budget cps ci widths := by
  intro ci
  induction ci with
  | zero =>
    intro widths cps hc
    have hc0 : cps = 0 := Nat.le_zero.mp hc
    subst hc0
    simp only [leftLoop]
  | succ ci ih =>
    intro widths cps hc
    by_cases hov : sumW widths + colLength w headers rows (ci + 1) + widths.length ≥ budget
    · simp only [leftLoop, if_pos hov]
    · by_cases hcp : ci + 1 = cps
      · subst hcp
        have horig : leftLoop w headers rows budget (ci + 1) (ci + 1) widths =
            (widths ++ [(headers.getD (ci + 1) "", colLength w headers rows (ci + 1))],
              ci + 1) := by
          simp only [leftLoop, if_neg hov, if_pos rfl, if_true]
        rw [horig, if_neg (Nat.lt_irrefl _)]
        exact horig
      · have hcc : cps ≤ ci := by omega
        have horig : leftLoop w headers rows budget cps (ci + 1) widths =
            leftLoop w headers rows budget cps ci
              (widths ++ [(headers.getD (ci + 1) "", colLength w headers rows (ci + 1))]) := by
          simp only [leftLoop, if_neg hov, if_neg hcp]
        rw [horig]
        have hb := leftLoop_snd_le w headers rows budget cps ci
          (widths ++ [(headers.getD (ci + 1) "", colLength w headers rows (ci + 1))])
        by_cases he : (leftLoop w headers rows budget cps ci
            (widths ++ [(headers.getD (ci + 1) "", colLength w headers rows (ci + 1))])).2
            = ci + 1
        · have hr := leftLoop_eq_of_snd w headers rows budget ci
            (widths ++ [(headers.getD (ci + 1) "", colLength w headers rows (ci + 1))])
            cps hcc he
          rw [he, if_neg (Nat.lt_irrefl (ci + 1))]
          simp only [leftLoop, if_neg hov, if_pos rfl, if_true]
          rw [hr]
        · have hlt : (leftLoop w headers rows budget cps ci
              (widths ++ [(headers.getD (ci + 1) "", colLength w headers rows (ci + 1))])).2
              ≤ ci := by omega
          rw [if_neg (by omega : ¬ ci + 1 < (leftLoop w headers rows budget cps ci
            (widths ++ [(headers.getD (ci + 1) "", colLength w headers rows (ci + 1))])).2)]
          simp only [leftLoop, if_neg hov,
            if_neg (by omega : ¬ ci + 1 = (leftLoop w headers rows budget cps ci
              (widths ++ [(headers.getD (ci + 1) "",
                colLength w headers rows (ci + 1))])).2)]
          have hih := ih
            (widths ++ [(headers.getD (ci + 1) "", colLength w headers rows (ci + 1))])
            cps hcc
          rw [if_neg (by omega : ¬ ci < (leftLoop w headers rows budget cps ci
            (widths ++ [(headers.getD (ci + 1) "", colLength w headers rows (ci + 1))])).2)]
            at hih
          exact hih

/-! ## Shared example states -/

/-- The grid of examples 1 and 2 of the specification (also the grid of the
source's own `test_calculate_cell_widths`), freshly constructed: cursor at
column 0, no rectangle, window cursor 0. -/
def exampleGrid : TableComponent :=
  TableComponent.new [["aaaaa", "bbbbb", "ccccc"], ["d", "e", "f"]] ["1", "2", "3"]

/-- A one-cell grid used to probe the window-cursor invariant. -/
def tinyGrid : TableComponent := TableComponent.new [["a"]] ["1"]

/-! ## The claims -/

/-- C1, counterexample: on the example grid at viewport width 20 the visible
headers are `["", "1", "2", "3"]` as claimed, but a flexible `Min 10`
trailing column IS appended — contradicting the claim that no flexible
trailing column appears because the rightmost visible column is the grid's
true last column.  (The source's own unit test asserts the `Min(10)`.) -/
theorem c1_counterexample :
    (exampleGrid.calculate_cell_widths asciiWidth 20).1.2.1 = ["", "1", "2", "3"]
    ∧ Constraint.Min 10 ∈ (exampleGrid.calculate_cell_widths asciiWidth 20).1.2.2.2 := by
  constructor
  · rfl
  · decide

/-- C1, amended: at viewport width 20 the full result is selected index 1,
visible headers `["", "1", "2", "3"]`, visible rows with their number
prefixes, and constraints `[Length 1, Length 5, Length 5, Min 10]` — the
last visible data column is rendered flexible because the code appends the
flexible column whenever the SELECTED column is not the grid's last column,
regardless of which column is rightmost visible. -/
theorem c1_amended :
    exampleGrid.calculate_cell_widths asciiWidth 20 =
      ((1, ["", "1", "2", "3"],
        [["1", "aaaaa", "bbbbb", "ccccc"], ["2", "d", "e", "f"]],
        [Constraint.Length 1, Constraint.Length 5, Constraint.Length 5,
          Constraint.Min 10]), 0) := by
  rfl

/-- C5: on the example grid at viewport width 10 the result is selected
index 1, visible headers `["", "1", "2"]`, visible rows
`[["1", "aaaaa", "bbbbb"], ["2", "d", "e"]]`, and constraints
`[Length 1, Length 5, Min 10]`. -/
theorem c5_example1 :
    exampleGrid.calculate_cell_widths asciiWidth 10 =
      ((1, ["", "1", "2"], [["1", "aaaaa", "bbbbb"], ["2", "d", "e"]],
        [Constraint.Length 1, Constraint.Length 5, Constraint.Min 10]), 0) := by
  rfl

/-- C3, counterexample: on a one-column grid with the cursor at column 0 and
a viewport too narrow to fit even that column (width 4, of which 1 goes to
the row-number column and the clamped content width is 3), the leftward
loop overflows immediately and persists `column_page_start = 1`, which is
NOT `≤ selected_column = 0`. -/
theorem c3_counterexample :
    ¬ ((tinyGrid.calculate_cell_widths asciiWidth 4).2 ≤ tinyGrid.selected_column) := by
  decide

/-- C3, amended: after any single `calculate_cell_widths` call on a state
with non-empty rows, the persisted `column_page_start` is at most
`selected_column_index + 1`, where `selected_column_index` is the rectangle
corner's column when a rectangle is set and the cursor column otherwise.
(The bound `column_page_start ≤ selected_column` of the original claim can
fail both when the viewport cannot fit the selected column — see the
counterexample — and when a rectangle corner lies right of the cursor.) -/
theorem c3_amended (w : String → Nat) (s : TableComponent) (area_width : Nat)
    (h : s.rows ≠ []) :
    (s.calculate_cell_widths w area_width).2 ≤ s.selected_column_index + 1 := by
  have hemp : s.rows.isEmpty = false := by
    simpa [List.isEmpty_eq_false] using h
  simp only [TableComponent.calculate_cell_widths, hemp, Bool.false_eq_true, if_false]
  exact leftLoop_snd_le w s.headers s.rows _ _ s.selected_column_index []

/-- C3 witness: the amended bound at a concrete input. -/
theorem c3_amended_witness :
    (tinyGrid.calculate_cell_widths asciiWidth 4).2 ≤ tinyGrid.selected_column_index + 1 :=
  c3_amended asciiWidth tinyGrid 4 (by decide)

/-- C2: after updating the word to `"Z"` (which matches no reserved word,
so the filtered list is empty while the selection is reset to index 0),
the move-down key is NOT a no-op: `next` computes
`filterd_candidates().count() - 1` on the empty list — a `usize` underflow
(debug-profile panic; release-profile wrap to `usize::MAX`) — and moves the
selection from index 0 to index 1; `previous` moves it to `usize::MAX`. -/
theorem c2_empty_filter_moves_selection :
    (((CompletionComponent.new "").update "Z").filterd_candidates = []
      ∧ ((CompletionComponent.new "").update "Z").state_selected = some 0)
    ∧ (((CompletionComponent.new "").update "Z").next).state_selected = some 1
    ∧ (((CompletionComponent.new "").update "Z").previous).state_selected
        = some (USIZE - 1) := by
  exact ⟨⟨rfl, rfl⟩, rfl, rfl⟩

/-- C8: updating the word to `"AN"` filters the reserved words down to
exactly `["AND"]` and `string_to_be_completed` returns `"D "` (the selected
candidate's characters beyond the typed prefix length, plus a trailing
space); and in general it returns nothing when no candidate is selected or
when the filtered list is empty. -/
theorem c8_completion_example_and_tail :
    (((CompletionComponent.new "").update "AN").filterd_candidates = ["AND"]
      ∧ ((CompletionComponent.new "").update "AN").string_to_be_completed = some "D ")
    ∧ (∀ c : CompletionComponent, c.state_selected = none →
        c.string_to_be_completed = none)
    ∧ (∀ c : CompletionComponent, c.filterd_candidates = [] →
        c.string_to_be_completed = none) := by
  refine ⟨⟨rfl, rfl⟩, ?_, ?_⟩
  · intro c h
    simp [CompletionComponent.string_to_be_completed, h]
  · intro c h
    cases hs : c.state_selected with
    | none => simp [CompletionComponent.string_to_be_completed, hs]
    | some i => simp [CompletionComponent.string_to_be_completed, hs, h]

/-- C8 witness: the no-selection case at a concrete input. -/
theorem c8_witness :
    (CompletionComponent.new "AN").string_to_be_completed = none :=
  c8_completion_example_and_tail.2.1 (CompletionComponent.new "AN") rfl

/-- C10: the error dialog's event handler reports every key as not consumed
and returns the component unchanged (in particular the stored error message
is never mutated). -/
theorem c10_error_event_not_consumed (c : ErrorComponent) (k : Key) :
    c.event k = (c, EventState.NotConsumed) :=
  rfl

/-- C9: the table viewer's event handler: the move-row-down-by-one key
(`'j'`) and the page-down-by-ten key (Ctrl-d) perform their mutation of the
selection yet report `NotConsumed`; every other recognized navigation key
reports `Consumed`; unrecognized keys report `NotConsumed` and leave the
state unchanged. -/
theorem c9_event_consumption (s : TableComponent) :
    ((∀ i, s.selected_row = some i → i + 1 < s.rows.length →
        (s.event (Key.Char 'j')).1.selected_row = some (i + 1)
          ∧ (s.event (Key.Char 'j')).2 = EventState.NotConsumed)
      ∧ (∀ i, s.selected_row = some i → i + 10 < s.rows.length →
        (s.event (Key.Ctrl 'd')).1.selected_row = some (i + 10)
          ∧ (s.event (Key.Ctrl 'd')).2 = EventState.NotConsumed))
    ∧ ((s.event (Key.Char 'h')).2 = EventState.Consumed
      ∧ (s.event (Key.Char 'k')).2 = EventState.Consumed
      ∧ (s.event (Key.Ctrl 'u')).2 = EventState.Consumed
      ∧ (s.event (Key.Char 'g')).2 = EventState.Consumed
      ∧ (s.event (Key.Char 'G')).2 = EventState.Consumed
      ∧ (s.event (Key.Char 'l')).2 = EventState.Consumed
      ∧ (s.event (Key.Char 'H')).2 = EventState.Consumed
      ∧ (s.event (Key.Char 'J')).2 = EventState.Consumed
      ∧ (s.event (Key.Char 'K')).2 = EventState.Consumed
      ∧ (s.event (Key.Char 'L')).2 = EventState.Consumed)
    ∧ (∀ c : Char, c ∉ (['h', 'j', 'k', 'g', 'G', 'l', 'H', 'J', 'K', 'L'] : List Char) →
        s.event (Key.Char c) = (s, EventState.NotConsumed))
    ∧ (∀ c : Char, c ∉ (['d', 'u'] : List Char) →
        s.event (Key.Ctrl c) = (s, EventState.NotConsumed))
    ∧ s.event Key.Other = (s, EventState.NotConsumed) := by
  refine ⟨⟨?_, ?_⟩, ⟨rfl, rfl, rfl, rfl, rfl, rfl, rfl, rfl, rfl, rfl⟩, ?_, ?_, rfl⟩
  · intro i hi hlt
    refine ⟨?_, rfl⟩
    show (s.next_row 1).selected_row = some (i + 1)
    simp only [TableComponent.next_row, hi]
    rw [if_neg (by omega : ¬ i + 1 ≥ s.rows.length)]
  · intro i hi hlt
    refine ⟨?_, rfl⟩
    show (s.next_row 10).selected_row = some (i + 10)
    simp only [TableComponent.next_row, hi]
    rw [if_neg (by omega : ¬ i + 10 ≥ s.rows.length)]
  · intro c h
    simp only [List.mem_cons, List.not_mem_nil, or_false, not_or] at h
    obtain ⟨h1, h2, h3, h4, h5, h6, h7, h8, h9, h10⟩ := h
    simp [TableComponent.event, Key.Char.injEq, h1, h2, h3, h4, h5, h6, h7, h8, h9, h10]
  · intro c h
    simp only [List.mem_cons, List.not_mem_nil, or_false, not_or] at h
    obtain ⟨h1, h2⟩ := h
    simp [TableComponent.event, Key.Ctrl.injEq, h1, h2]

/-- C9 witness: the handler dispositions at a concrete state and key. -/
theorem c9_witness :
    (TableComponent.new [["a"], ["b"]] ["1"]).event (Key.Char 'x')
      = (TableComponent.new [["a"], ["b"]] ["1"], EventState.NotConsumed) :=
  (c9_event_consumption (TableComponent.new [["a"], ["b"]] ["1"])).2.2.1 'x' (by decide)

/-- Slicing a list (`drop a` then `take n`) is pointwise defaulted indexing
over the index range `[a, a + n)`, provided the slice lies inside the
list — the Lean counterpart of a panic-free Rust slice `l[a..a + n]`. -/
theorem drop_take_eq_range'_map {α : Type _} (l : List α) (d : α) :
    ∀ (n a : Nat), a + n ≤ l.length →
      (l.drop a).take n = (List.range' a n).map (fun i => l.getD i d) := by
  intro n
  induction n with
  | zero => intro a ha; simp
  | succ n ih =>
    intro a ha
    have hlt : a < l.length := by omega
    rw [List.drop_eq_getElem_cons hlt, List.take_succ_cons, List.range'_succ,
      List.map_cons, ih (a + 1) (by omega), List.getD_eq_getElem l d hlt]

/-- C6: `selected_cells` behaviour.  Without a rectangle it returns exactly
the raw grid cell under the cursor (and nothing when the row selection is
absent); with a rectangle corner `(x, y)` it returns the cells of rows
`min(y, sr)..=max(y, sr)` restricted to columns
`min(x, sc)..=max(x, sc)`, cells joined by `","` within a row and rows
joined by `"\n"`; concretely, corner `(1,1)` with cursor `(0,0)` over
`[["a","b","c"],["d","e","f"]]` yields `"a,b\nd,e"`. -/
theorem c6_selected_cells :
    (∀ (s : TableComponent) (sr : Nat) (row : List String) (cell : String),
        s.selection_area_corner = none → s.selected_row = some sr →
        s.rows.get? sr = some row → row.get? s.selected_column = some cell →
        s.selected_cells = some cell)
    ∧ (∀ s : TableComponent, s.selected_row = none → s.selected_cells = none)
    ∧ (∀ (s : TableComponent) (x y sr : Nat),
        s.selection_area_corner = some (x, y) → s.selected_row = some sr →
        max y sr < s.rows.length →
        (∀ i, i < s.rows.length →
          max x s.selected_column < (s.rows.getD i []).length) →
        s.selected_cells = some (String.intercalate "\n"
          ((List.range' (min y sr) (max y sr + 1 - min y sr)).map (fun i =>
            String.intercalate ","
              ((List.range' (min x s.selected_column)
                  (max x s.selected_column + 1 - min x s.selected_column)).map (fun j =>
                (s.rows.getD i []).getD j ""))))))
    ∧ ({ TableComponent.new [["a", "b", "c"], ["d", "e", "f"]] ["1", "2", "3"] with
          selection_area_corner := some (1, 1) : TableComponent }.selected_cells
        = some "a,b\nd,e") := by
  refine ⟨?_, ?_, ?_, rfl⟩
  · intro s sr row cell hc hr hrow hcell
    rw [List.get?_eq_getElem?] at hrow hcell
    simp [TableComponent.selected_cells, hc, hr, hrow, hcell]
  · intro s hr
    cases hc : s.selection_area_corner with
    | none => simp [TableComponent.selected_cells, hc, hr]
    | some c => obtain ⟨x, y⟩ := c; simp [TableComponent.selected_cells, hc, hr]
  · intro s x y sr hc hr hy hx
    simp only [TableComponent.selected_cells, hc, hr]
    rw [drop_take_eq_range'_map s.rows [] (max y sr + 1 - min y sr) (min y sr)
      (by omega), List.map_map]
    refine congrArg _ (congrArg _ (List.map_congr_left ?_))
    intro i hi
    have hib : i < s.rows.length := by
      rcases List.mem_range'_1.mp hi with ⟨h1, h2⟩
      omega
    simp only [Function.comp]
    rw [drop_take_eq_range'_map (s.rows.getD i [])
      "" (max x s.selected_column + 1 - min x s.selected_column)
      (min x s.selected_column) (by have := hx i hib; omega)]

/-- C6 witness: the no-rectangle round-trip at a concrete input. -/
theorem c6_witness : exampleGrid.selected_cells = some "aaaaa" :=
  c6_selected_cells.1 exampleGrid 0 ["aaaaa", "bbbbb", "ccccc"] "aaaaa"
    rfl rfl rfl rfl

/-- The navigation invariant: the cursor column is within the header range
and the selected row, when present, is within the row range. -/
def NavInv (s : TableComponent) : Prop :=
  s.selected_column < s.headers.length
    ∧ ∀ r, s.selected_row = some r → r < s.rows.length

theorem navinv_next_row (s : TableComponent) (n : Nat) (h : NavInv s) :
    NavInv (s.next_row n) := by
  obtain ⟨h1, h2⟩ := h
  refine ⟨h1, ?_⟩
  intro r hr
  simp only [TableComponent.next_row] at hr ⊢
  cases hsel : s.selected_row with
  | none => rw [hsel] at hr; exact absurd hr (by simp)
  | some i =>
    have hi := h2 i hsel
    rw [hsel] at hr
    simp only at hr
    split at hr
    · cases hr; omega
    · next hlt => cases hr; omega

theorem navinv_previous_row (s : TableComponent) (n : Nat) (h : NavInv s) :
    NavInv (s.previous_row n) := by
  obtain ⟨h1, h2⟩ := h
  refine ⟨h1, ?_⟩
  intro r hr
  simp only [TableComponent.previous_row] at hr ⊢
  cases hsel : s.selected_row with
  | none => rw [hsel] at hr; exact absurd hr (by simp)
  | some i =>
    have hi := h2 i hsel
    rw [hsel] at hr
    simp only at hr
    split at hr
    · cases hr; omega
    · cases hr; omega

theorem navinv_scroll_top (s : TableComponent) (h : NavInv s) :
    NavInv s.scroll_top := by
  obtain ⟨h1, h2⟩ := h
  unfold TableComponent.scroll_top
  split
  · exact ⟨h1, h2⟩
  · next hne =>
    refine ⟨h1, ?_⟩
    intro r hr
    cases hr
    have hne' : s.rows ≠ [] := by simpa [List.isEmpty_eq_false] using hne
    exact List.length_pos.mpr hne'

theorem navinv_scroll_bottom (s : TableComponent) (h : NavInv s) :
    NavInv s.scroll_bottom := by
  obtain ⟨h1, h2⟩ := h
  unfold TableComponent.scroll_bottom
  split
  · exact ⟨h1, h2⟩
  · next hne =>
    refine ⟨h1, ?_⟩
    intro r hr
    cases hr
    have hne' : s.rows ≠ [] := by simpa [List.isEmpty_eq_false] using hne
    have := List.length_pos.mpr hne'
    dsimp only
    omega

theorem navinv_next_column (s : TableComponent) (h : NavInv s) :
    NavInv s.next_column := by
  obtain ⟨h1, h2⟩ := h
  unfold TableComponent.next_column
  split
  · exact ⟨h1, h2⟩
  · split
    · exact ⟨h1, h2⟩
    · next hge => exact ⟨by dsimp only; omega, h2⟩

theorem navinv_previous_column (s : TableComponent) (h : NavInv s) :
    NavInv s.previous_column := by
  obtain ⟨h1, h2⟩ := h
  unfold TableComponent.previous_column
  split
  · exact ⟨h1, h2⟩
  · split
    · exact ⟨h1, h2⟩
    · exact ⟨by dsimp only; omega, h2⟩

theorem navinv_expand_x (s : TableComponent) (b : Bool) (h : NavInv s) :
    NavInv (s.expand_selected_area_x b) := by
  obtain ⟨h1, h2⟩ := h
  exact ⟨h1, h2⟩

theorem navinv_expand_y (s : TableComponent) (b : Bool) (h : NavInv s) :
    NavInv (s.expand_selected_area_y b) := by
  obtain ⟨h1, h2⟩ := h
  exact ⟨h1, h2⟩

/-- A single event preserves the navigation invariant. -/
theorem navinv_event (s : TableComponent) (k : Key) (h : NavInv s) :
    NavInv (s.event k).1 := by
  simp only [TableComponent.event]
  by_cases e1 : k = Key.Char 'h'
  · rw [if_pos e1]; exact navinv_previous_column s h
  rw [if_neg e1]
  by_cases e2 : k = Key.Char 'j'
  · rw [if_pos e2]; exact navinv_next_row s 1 h
  rw [if_neg e2]
  by_cases e3 : k = Key.Ctrl 'd'
  · rw [if_pos e3]; exact navinv_next_row s 10 h
  rw [if_neg e3]
  by_cases e4 : k = Key.Char 'k'
  · rw [if_pos e4]; exact navinv_previous_row s 1 h
  rw [if_neg e4]
  by_cases e5 : k = Key.Ctrl 'u'
  · rw [if_pos e5]; exact navinv_previous_row s 10 h
  rw [if_neg e5]
  by_cases e6 : k = Key.Char 'g'
  · rw [if_pos e6]; exact navinv_scroll_top s h
  rw [if_neg e6]
  by_cases e7 : k = Key.Char 'G'
  · rw [if_pos e7]; exact navinv_scroll_bottom s h
  rw [if_neg e7]
  by_cases e8 : k = Key.Char 'l'
  · rw [if_pos e8]; exact navinv_next_column s h
  rw [if_neg e8]
  by_cases e9 : k = Key.Char 'H'
  · rw [if_pos e9]; exact navinv_expand_x s false h
  rw [if_neg e9]
  by_cases e10 : k = Key.Char 'K'
  · rw [if_pos e10]; exact navinv_expand_y s false h
  rw [if_neg e10]
  by_cases e11 : k = Key.Char 'J'
  · rw [if_pos e11]; exact navinv_expand_y s true h
  rw [if_neg e11]
  by_cases e12 : k = Key.Char 'L'
  · rw [if_pos e12]; exact navinv_expand_x s true h
  rw [if_neg e12]
  exact h

theorem fields_next_row (s : TableComponent) (n : Nat) :
    (s.next_row n).headers = s.headers ∧ (s.next_row n).rows = s.rows := ⟨rfl, rfl⟩

theorem fields_previous_row (s : TableComponent) (n : Nat) :
    (s.previous_row n).headers = s.headers ∧ (s.previous_row n).rows = s.rows := ⟨rfl, rfl⟩

theorem fields_scroll_top (s : TableComponent) :
    s.scroll_top.headers = s.headers ∧ s.scroll_top.rows = s.rows := by
  unfold TableComponent.scroll_top
  split <;> exact ⟨rfl, rfl⟩

theorem fields_scroll_bottom (s : TableComponent) :
    s.scroll_bottom.headers = s.headers ∧ s.scroll_bottom.rows = s.rows := by
  unfold TableComponent.scroll_bottom
  split <;> exact ⟨rfl, rfl⟩

theorem fields_next_column (s : TableComponent) :
    s.next_column.headers = s.headers ∧ s.next_column.rows = s.rows := by
  unfold TableComponent.next_column
  split
  · exact ⟨rfl, rfl⟩
  · split <;> exact ⟨rfl, rfl⟩

theorem fields_previous_column (s : TableComponent) :
    s.previous_column.headers = s.headers ∧ s.previous_column.rows = s.rows := by
  unfold TableComponent.previous_column
  split
  · exact ⟨rfl, rfl⟩
  · split <;> exact ⟨rfl, rfl⟩

theorem fields_expand_x (s : TableComponent) (b : Bool) :
    (s.expand_selected_area_x b).headers = s.headers
      ∧ (s.expand_selected_area_x b).rows = s.rows := ⟨rfl, rfl⟩

theorem fields_expand_y (s : TableComponent) (b : Bool) :
    (s.expand_selected_area_y b).headers = s.headers
      ∧ (s.expand_selected_area_y b).rows = s.rows := ⟨rfl, rfl⟩

/-- Events never replace the grid data. -/
theorem event_fields (s : TableComponent) (k : Key) :
    (s.event k).1.headers = s.headers ∧ (s.event k).1.rows = s.rows := by
  simp only [TableComponent.event]
  by_cases e1 : k = Key.Char 'h'
  · rw [if_pos e1]; exact fields_previous_column s
  rw [if_neg e1]
  by_cases e2 : k = Key.Char 'j'
  · rw [if_pos e2]; exact fields_next_row s 1
  rw [if_neg e2]
  by_cases e3 : k = Key.Ctrl 'd'
  · rw [if_pos e3]; exact fields_next_row s 10
  rw [if_neg e3]
  by_cases e4 : k = Key.Char 'k'
  · rw [if_pos e4]; exact fields_previous_row s 1
  rw [if_neg e4]
  by_cases e5 : k = Key.Ctrl 'u'
  · rw [if_pos e5]; exact fields_previous_row s 10
  rw [if_neg e5]
  by_cases e6 : k = Key.Char 'g'
  · rw [if_pos e6]; exact fields_scroll_top s
  rw [if_neg e6]
  by_cases e7 : k = Key.Char 'G'
  · rw [if_pos e7]; exact fields_scroll_bottom s
  rw [if_neg e7]
  by_cases e8 : k = Key.Char 'l'
  · rw [if_pos e8]; exact fields_next_column s
  rw [if_neg e8]
  by_cases e9 : k = Key.Char 'H'
  · rw [if_pos e9]; exact fields_expand_x s false
  rw [if_neg e9]
  by_cases e10 : k = Key.Char 'K'
  · rw [if_pos e10]; exact fields_expand_y s false
  rw [if_neg e10]
  by_cases e11 : k = Key.Char 'J'
  · rw [if_pos e11]; exact fields_expand_y s true
  rw [if_neg e11]
  by_cases e12 : k = Key.Char 'L'
  · rw [if_pos e12]; exact fields_expand_x s true
  rw [if_neg e12]
  exact ⟨rfl, rfl⟩

/-- Folding any key sequence preserves the invariant and the grid data. -/
theorem navinv_foldl (keys : List Key) :
    ∀ s : TableComponent, NavInv s →
      NavInv (keys.foldl (fun t k => (t.event k).1) s)
        ∧ (keys.foldl (fun t k => (t.event k).1) s).headers = s.headers
        ∧ (keys.foldl (fun t k => (t.event k).1) s).rows = s.rows := by
  induction keys with
  | nil => intro s h; exact ⟨h, rfl, rfl⟩
  | cons k keys ih =>
    intro s h
    have h' := navinv_event s k h
    have hf := event_fields s k
    have := ih (s.event k).1 h'
    simp only [List.foldl_cons]
    exact ⟨this.1, this.2.1.trans hf.1, this.2.2.trans hf.2⟩

/-- C4: for every grid with non-empty headers and rows, starting from the
constructed state, after any finite sequence of keys the cursor column
stays within `[0, headers.len())` and the selected row, when present,
stays within `[0, rows.len())`. -/
theorem c4_navigation_bounds (headers : List String) (rows : List (List String))
    (h1 : headers ≠ []) (h2 : rows ≠ []) (keys : List Key) :
    (keys.foldl (fun t k => (t.event k).1) (TableComponent.new rows headers)).selected_column
        < headers.length
      ∧ ∀ r, (keys.foldl (fun t k => (t.event k).1)
            (TableComponent.new rows headers)).selected_row = some r →
          r < rows.length := by
  have hinv : NavInv (TableComponent.new rows headers) := by
    constructor
    · simpa [TableComponent.new] using List.length_pos.mpr h1
    · intro r hr
      simp only [TableComponent.new] at hr
      rw [if_neg (by simpa [List.isEmpty_eq_false] using h2 : ¬ rows.isEmpty = true)] at hr
      cases hr
      exact List.length_pos.mpr h2
  obtain ⟨⟨g1, g2⟩, gh, gr⟩ := navinv_foldl keys (TableComponent.new rows headers) hinv
  constructor
  · have he : (TableComponent.new rows headers).headers = headers := rfl
    rw [gh, he] at g1
    exact g1
  · intro r hr
    have := g2 r hr
    have he : (TableComponent.new rows headers).rows = rows := rfl
    rw [gr, he] at this
    exact this

/-- C4 witness: the bounds after a concrete key sequence on a concrete
grid. -/
theorem c4_witness :
    (([Key.Char 'j', Key.Char 'l', Key.Ctrl 'd'].foldl (fun t k => (t.event k).1)
        (TableComponent.new [["a"], ["b"]] ["1"])).selected_column < 1
      ∧ ∀ r, ([Key.Char 'j', Key.Char 'l', Key.Ctrl 'd'].foldl (fun t k => (t.event k).1)
            (TableComponent.new [["a"], ["b"]] ["1"])).selected_row = some r →
          r < 2) :=
  c4_navigation_bounds ["1"] [["a"], ["b"]] (by decide) (by decide)
    [Key.Char 'j', Key.Char 'l', Key.Ctrl 'd']

/-- C7: `calculate_cell_widths` is idempotent for a stationary cursor —
calling it a second time with the same viewport width, after the first call
has persisted its new `column_page_start`, returns the same (selected
index, visible headers, visible rows, constraints) tuple. -/
theorem c7_idempotent (w : String → Nat) (s : TableComponent) (area_width : Nat) :
    (({ s with column_page_start := (s.calculate_cell_widths w area_width).2 }
        : TableComponent).calculate_cell_widths w area_width).1
      = (s.calculate_cell_widths w area_width).1 := by
  by_cases hemp : s.rows.isEmpty = true
  · simp only [TableComponent.calculate_cell_widths]
    rw [if_pos hemp, if_pos hemp]
  · have hc : (if s.selected_column_index < s.column_page_start
        then s.selected_column_index else s.column_page_start)
        ≤ s.selected_column_index := by split <;> omega
    have hcps : (s.calculate_cell_widths w area_width).2
        = (leftLoop w s.headers s.rows
            (area_width - w (toString (s.rows.length + 1)))
            (if s.selected_column_index < s.column_page_start
              then s.selected_column_index else s.column_page_start)
            s.selected_column_index []).2 := by
      simp only [TableComponent.calculate_cell_widths]
      rw [if_neg hemp]
    have hrestart := leftLoop_restart w s.headers s.rows
      (area_width - w (toString (s.rows.length + 1)))
      s.selected_column_index []
      (if s.selected_column_index < s.column_page_start
        then s.selected_column_index else s.column_page_start) hc
    generalize hX : (s.calculate_cell_widths w area_width).2 = X
    have hXL : X = (leftLoop w s.headers s.rows
        (area_width - w (toString (s.rows.length + 1)))
        (if s.selected_column_index < s.column_page_start
          then s.selected_column_index else s.column_page_start)
        s.selected_column_index []).2 := by
      rw [← hX, hcps]
    simp only [TableComponent.calculate_cell_widths]
    rw [if_neg hemp, if_neg hemp]
    rw [show TableComponent.selected_column_index
        { s with column_page_start := X } = s.selected_column_index from rfl]
    rw [show TableComponent.headersSlice
        { s with column_page_start := X } = TableComponent.headersSlice s from rfl]
    rw [show TableComponent.rowsSlice
        { s with column_page_start := X } = TableComponent.rowsSlice s from rfl]
    rw [hXL, hrestart]
